import Mathlib

/-!
Shallow embedding of `kq/worker.py` (the KQ worker).

The worker pulls records from a Kafka topic, decodes each payload into a
`Job` with `dill.loads`, executes the job's callable (inline, or inside a
one-process `multiprocessing.Pool` when an effective timeout applies),
classifies the outcome, invokes an optional callback to obtain a commit
decision, retries while the decision is `0`, dead-letters on `-1`, and
commits otherwise.

Modelling choices:
- Payloads (raw record bytes) are opaque and modelled as `Nat` ids.
- `dill.loads` and the job's callable are external effects; they enter the
  embedding as oracles (`loads : Payload → Option PyObj`, and a per-attempt
  `run : Nat → RunResult`).
- Python result values, exceptions and tracebacks are modelled as `Int`/`Nat`
  ids; the commit-control value returned by the callback is modelled as
  `Int` (the code only ever compares it with `0` and `-1`).
- The unbounded `while commit_control == 0` loop of `Worker.start` is
  modelled with explicit fuel; `none` means the loop had not produced a
  decisive (non-zero) decision within `fuel` attempts.
-/

namespace KQ

/-- Raw record payload bytes (`record.value`), opaque. -/
abbrev Payload := Nat

/-- A record fetched from the Kafka topic (`kafka ConsumerRecord`); the
worker only ever reads `value` (plus metadata for logging). -/
structure Record where
  value : Payload
  recPartition : Nat
  offset : Nat
  deriving Repr, DecidableEq

/-- The Python object produced by a successful `dill.loads(record.value)`.
The four booleans mirror the validity conjunction checked in
`Worker._consume_record` (`isinstance(job, Job)`, `isinstance(job.args,
Iterable)`, `isinstance(job.kwargs, Mapping)`, `callable(job.func)`).
`keyAttr` models the `.key` attribute access in `Worker._fail_record`
(`none` = the access raises, `some k` = the attribute holds key `k`, itself
optional). The callable itself is opaque; its behaviour is an oracle. -/
structure PyObj where
  isJobInstance : Bool
  argsIterable : Bool
  kwargsMapping : Bool
  funcCallable : Bool
  keyAttr : Option (Option Int)
  jobId : Nat
  jobTimeout : Option Nat
  deriving Repr, DecidableEq

/-- The validity check of `Worker._consume_record` lines 246-249. -/
def validJob (o : PyObj) : Bool :=
  o.isJobInstance && o.argsIterable && o.kwargsMapping && o.funcCallable

/-- Job-execution status passed to the callback (`'timeout'`, `'failure'`,
`'success'` strings in the source). -/
inductive Status where
  | success
  | failure
  | timeout
  deriving Repr, DecidableEq

/-- One invocation of the user callback, with the positional arguments
`(status, job, result, exception, traceback, try_count)` used in
`Worker._consume_record`. -/
structure CallbackCall where
  status : Status
  job : PyObj
  result : Option Int
  exception : Option Nat
  traceback : Option Nat
  tryCount : Nat
  deriving Repr, DecidableEq

/-- Behaviour of one user-callback invocation: the callback either raises
(caught and logged by `Worker._exec_callback`) or returns a Python value
(`none` models Python `None`). -/
inductive CbResult where
  | raises
  | returns (v : Option Int)
  deriving Repr, DecidableEq

/-- Worker configuration relevant to the per-record state machine
(`Worker.__init__`). `timeout` is the worker-level default job timeout
(`self._timeout`); `callback` is the optional outcome callback. -/
structure WorkerCfg where
  topic : String
  timeout : Option Nat
  callback : Option (CallbackCall → CbResult)

/-- Embedding of `Worker._exec_callback`: runs the callback inside try/except; a missing
callback, a raising callback, or a `None` return all leave `resp = None`,
which is then replaced by `1`. Returns the commit-control value together
with the list of callback invocations actually made (`[]` or `[call]`). -/
def execCallback (callback : Option (CallbackCall → CbResult)) (call : CallbackCall) :
    Int × List CallbackCall :=
  match callback with
  | none => (1, [])
  | some cb =>
    match cb call with
    | .raises => (1, [call])
    | .returns none => (1, [call])
    | .returns (some v) => (v, [call])

/-- Embedding of `Worker._get_fail_topic`: the dead-letter topic is `<topic>.failed`. -/
def getFailTopic (topic : String) : String :=
  topic ++ ".failed"

/-- Python truthiness of `self._timeout` as used by `self._timeout or
job.timeout`: `None` and `0` are falsy. -/
def timeoutConfigured (workerTimeout : Option Nat) : Bool :=
  workerTimeout.getD 0 != 0

/-- The effective timeout computed at line 258 of `_consume_record`:
`timeout = self._timeout or job.timeout`. -/
def effTimeout (workerTimeout jobTimeout : Option Nat) : Option Nat :=
  if timeoutConfigured workerTimeout then workerTimeout else jobTimeout

/-- How the callable is dispatched: inline in the calling context
(`res = func(*args, **kwargs)`), or through the worker's single
`multiprocessing.Pool` slot awaited for up to `t` seconds
(`run = self._pool.apply_async(...); res = run.get(timeout)`). -/
inductive ExecPath where
  | inline
  | pool (t : Nat)
  deriving Repr, DecidableEq

/-- The dispatch decision of `_consume_record` lines 258-263. -/
def execPath (workerTimeout jobTimeout : Option Nat) : ExecPath :=
  match effTimeout workerTimeout jobTimeout with
  | none => .inline
  | some t => .pool t

/-- Number of processes in the execution pool created once in
`Worker.start` (`self._pool = mp.Pool(processes=1)`). -/
def poolProcesses : Nat := 1

/-- Result of actually running the job's callable (an external effect):
normal return, `multiprocessing.TimeoutError`, or any other exception
with its formatted traceback. -/
inductive RunResult where
  | ok (res : Int)
  | timeoutErr
  | raised (e : Nat) (trace : Nat)
  deriving Repr, DecidableEq

/-- Everything one `Worker._consume_record` call produces: the returned
commit-control value, the callback invocations made, whether the job's
callable was dispatched at all, which dispatch path was used, and the
outcome classification (`none` when the record never reached execution). -/
structure AttemptOut where
  commitControl : Int
  cbCalls : List CallbackCall
  executed : Bool
  path : Option ExecPath
  outcome : Option Status
  deriving Repr, DecidableEq

/-- Embedding of `Worker._consume_record`. Here `loads` is the `dill.loads` oracle (`none` =
raises); `run` is the outcome of executing the job's callable this attempt.
Decode failure and the validity check both yield `-1` (permanent failure)
without dispatching the callable and without invoking the callback;
otherwise the callable runs and the outcome is classified into
`timeout` / `failure` / `success`, each routed through `_exec_callback`. -/
def consumeRecord (cfg : WorkerCfg) (loads : Payload → Option PyObj)
    (run : RunResult) (record : Record) (tryCount : Nat) : AttemptOut :=
  match loads record.value with
  | none =>
      -- `dill.loads` raised: '{} unloadable. Skipping ...', commit_control = -1
      ⟨-1, [], false, none, none⟩
  | some job =>
      if validJob job then
        let path := execPath cfg.timeout job.jobTimeout
        match run with
        | .timeoutErr =>
            let ec := execCallback cfg.callback ⟨.timeout, job, none, none, none, tryCount⟩
            ⟨ec.1, ec.2, true, some path, some .timeout⟩
        | .raised e trace =>
            let ec := execCallback cfg.callback ⟨.failure, job, none, some e, some trace, tryCount⟩
            ⟨ec.1, ec.2, true, some path, some .failure⟩
        | .ok res =>
            let ec := execCallback cfg.callback ⟨.success, job, some res, none, none, tryCount⟩
            ⟨ec.1, ec.2, true, some path, some .success⟩
      else
        -- '{} malformed. Skipping ...', commit_control = -1, early return
        ⟨-1, [], false, none, none⟩

/-- The request `Worker._fail_record` hands to `q.producer.send`: topic,
raw payload bytes, and best-effort partition key. -/
structure SendReq where
  sendTopic : String
  value : Payload
  key : Option Int
  deriving Repr, DecidableEq

/-- What one `Worker._fail_record` call did: whether the publish was
acknowledged (its boolean return), the send request it issued, and the id
of the producer it used. A fresh `Queue` — hence a fresh Kafka producer —
is constructed inside every call (lines 198-209), so the producer id used
is exactly the next unallocated id. -/
structure FailOut where
  acked : Bool
  req : SendReq
  producerId : Nat
  nextProducerId : Nat
  deriving Repr, DecidableEq

/-- Embedding of `Worker._fail_record`. Here `nextProducerId` threads the allocation of
producer instances (each call constructs a new `Queue`); `ackOk` models
whether `future.get(...)` succeeds within its timeout (external). The key
is recovered by re-decoding the payload: any failure of `dill.loads` or of
the `.key` attribute access leaves the key `None`, and the raw payload
bytes are forwarded verbatim to `<topic>.failed` either way. -/
def failRecord (cfg : WorkerCfg) (loads : Payload → Option PyObj)
    (record : Record) (ackOk : Bool) (nextProducerId : Nat) : FailOut :=
  let failTopic := getFailTopic cfg.topic
  let key : Option Int :=
    match loads record.value with
    | none => none
    | some obj =>
        match obj.keyAttr with
        | none => none
        | some k => k
  { acked := ackOk
    req := ⟨failTopic, record.value, key⟩
    producerId := nextProducerId
    nextProducerId := nextProducerId + 1 }

/-- Statistics accumulated across the attempts of one record inside the
`while commit_control == 0` loop of `Worker.start`. -/
structure LoopStats where
  attempts : Nat
  executions : Nat
  cbCalls : List CallbackCall
  deriving Repr, DecidableEq

/-- Fold one attempt's output into the running statistics. -/
def LoopStats.push (acc : LoopStats) (out : AttemptOut) : LoopStats :=
  ⟨acc.attempts + 1,
   acc.executions + (if out.executed then 1 else 0),
   acc.cbCalls ++ out.cbCalls⟩

/-- The retry loop of `Worker.start` lines 323-327:
`commit_control = 0; try_count = 0; while commit_control == 0:
commit_control = self._consume_record(record, try_count); try_count += 1`.
`step k` is the attempt made with `try_count = k`. Fuel-bounded: `none`
means no decisive (non-zero) commit-control value was produced within
`fuel` attempts; otherwise returns the decisive value and the stats. -/
def attemptLoop (step : Nat → AttemptOut) :
    Nat → Nat → LoopStats → Option (Int × LoopStats)
  | 0, _, _ => none
  | fuel + 1, k, acc =>
      let out := step k
      let acc' := acc.push out
      if out.commitControl = 0 then attemptLoop step fuel (k + 1) acc'
      else some (out.commitControl, acc')

/-- Per-attempt environment for one record: the `dill.loads` oracle, the
result of running the callable on the attempt with `try_count = k`, and
whether a dead-letter publish would be acknowledged. -/
structure Env where
  loads : Payload → Option PyObj
  run : Nat → RunResult
  ackOk : Bool

/-- Everything `Worker.start` did for one record: attempt/execution counts,
callback invocations, the decisive commit-control value, the dead-letter
send request if `_fail_record` was invoked, and whether the offset was
committed. -/
structure RecordTrace where
  attempts : Nat
  executions : Nat
  cbCalls : List CallbackCall
  finalDecision : Int
  forwarded : Option SendReq
  committed : Bool
  deriving Repr, DecidableEq

/-- Processing of one record by `Worker.start` lines 323-333: run the
retry loop to a decisive commit-control value, then either commit
unconditionally, or — when the value is exactly `-1` — invoke
`_fail_record` and commit only if it returns `True`. `none` when the loop
did not terminate within `fuel` attempts. -/
def processRecord (cfg : WorkerCfg) (env : Env) (record : Record)
    (fuel : Nat) : Option RecordTrace :=
  match attemptLoop
      (fun k => consumeRecord cfg env.loads (env.run k) record k)
      fuel 0 ⟨0, 0, []⟩ with
  | none => none
  | some (cc, stats) =>
      if cc = -1 then
        let fo := failRecord cfg env.loads record env.ackOk 0
        some ⟨stats.attempts, stats.executions, stats.cbCalls, cc,
              some fo.req, fo.acked⟩
      else
        some ⟨stats.attempts, stats.executions, stats.cbCalls, cc,
              none, true⟩

/-- Producer ids used by a sequence of `_fail_record` calls within one
worker, starting from allocation state `nextId`: every call constructs a
fresh `Queue` (lines 198-209), so every forward uses a new producer. -/
def forwardProducerIds (cfg : WorkerCfg) (loads : Payload → Option PyObj)
    (ackOk : Bool) : List Record → Nat → List Nat
  | [], _ => []
  | r :: rs, nextId =>
      let fo := failRecord cfg loads r ackOk nextId
      fo.producerId :: forwardProducerIds cfg loads ackOk rs fo.nextProducerId

/-- Outcome classification of `_consume_record`'s try/except around the
callable: `mp.TimeoutError` → `timeout`, any other exception → `failure`,
normal return → `success`. -/
def statusOf : RunResult → Status
  | .timeoutErr => .timeout
  | .raised _ _ => .failure
  | .ok _ => .success

/-- The callback-argument tuple built by `_consume_record` for a given
execution result at `try_count = k`: `('timeout', job, None, None, None,
try_count)`, `('failure', job, None, e, tb.format_exc(), try_count)` or
`('success', job, res, None, None, try_count)`. -/
def mkCall (obj : PyObj) (run : RunResult) (k : Nat) : CallbackCall :=
  match run with
  | .timeoutErr => ⟨.timeout, obj, none, none, none, k⟩
  | .raised e trace => ⟨.failure, obj, none, some e, some trace, k⟩
  | .ok res => ⟨.success, obj, some res, none, none, k⟩

/-- Stats of `m` consecutive attempts `step k, step (k+1), ...` folded on
top of `acc` (the shape `attemptLoop` accumulates). -/
def pushRange (step : Nat → AttemptOut) (acc : LoopStats) : Nat → Nat → LoopStats
  | _, 0 => acc
  | k, m + 1 => pushRange step (acc.push (step k)) (k + 1) m

/-! Concrete fixtures used by witnesses and counterexamples. -/

/-- A well-formed decoded job: valid `Job` instance with iterable args,
mapping kwargs, callable func, partition key `7`, no per-job timeout. -/
def jobA : PyObj := ⟨true, true, true, true, some (some 7), 42, none⟩

/-- A `dill.loads` oracle that decodes payload `10` to `jobA` and raises
on everything else. -/
def loadsA : Payload → Option PyObj := fun p => if p = 10 then some jobA else none

/-- A `dill.loads` oracle that always raises (undecodable payloads). -/
def loads0 : Payload → Option PyObj := fun _ => none

/-- A record carrying payload `10` at partition 0, offset 5. -/
def recA : Record := ⟨10, 0, 5⟩

/-- A worker on topic `"default"` with no worker-level timeout and no
callback configured. -/
def cfgNone : WorkerCfg := ⟨"default", none, none⟩

/-- Environment: `recA` decodes to `jobA`, every execution returns `3`,
dead-letter publishes would not be acknowledged. -/
def envA : Env := ⟨loadsA, fun _ => .ok 3, false⟩

/-- A callback that always returns the Python value `0`. -/
def fRetry : CallbackCall → CbResult := fun _ => .returns (some 0)

/-- Worker configured with the always-`0` callback. -/
def cfgRetry : WorkerCfg := ⟨"default", none, some fRetry⟩

/-- A callback returning `0` (retry) while `try_count + 1 < 3` and `5`
(a commit value) once `try_count + 1 = 3`. -/
def fThird : CallbackCall → CbResult :=
  fun call => if call.tryCount + 1 < 3 then .returns (some 0) else .returns (some 5)

/-- Worker configured with `fThird`. -/
def cfgThird : WorkerCfg := ⟨"default", none, some fThird⟩

/-- A callback that always returns Python `None`. -/
def fNone : CallbackCall → CbResult := fun _ => .returns none

/-- Worker with the `None`-returning callback configured. -/
def cfgCb : WorkerCfg := ⟨"default", none, some fNone⟩

/-- Environment where every execution hits the timeout. -/
def envT : Env := ⟨loadsA, fun _ => .timeoutErr, false⟩

/-- Environment with an undecodable payload and failing dead-letter acks. -/
def envBad : Env := ⟨loads0, fun _ => .ok 0, false⟩

/-- The trace left by processing `recA` against `envBad` under `cfgNone`:
one attempt, no execution, dead-letter decision, forward to
`default.failed` with no recovered key, not committed. -/
def tC3 : RecordTrace :=
  ⟨1, 0, [], -1, some ⟨"default.failed", 10, none⟩, false⟩

/-- A callback that always returns the Python value `9`. -/
def fNine : CallbackCall → CbResult := fun _ => .returns (some 9)

/-- Worker configured with the always-`9` callback. -/
def cfgNine : WorkerCfg := ⟨"default", none, some fNine⟩

/-- The per-attempt step function for `cfgNine` over `envA` and `recA`. -/
def stepNine : Nat → AttemptOut :=
  fun k => consumeRecord cfgNine envA.loads (envA.run k) recA k

/-- Trace of `recA` under `cfgNine`/`envA`: one attempt, committed with
decision `9`, no dead-letter forward. -/
def tNine : RecordTrace :=
  ⟨1, 1, [⟨.success, jobA, some 3, none, none, 0⟩], 9, none, true⟩

/-- Trace of `recA` under `cfgThird`/`envA`: three attempts (two retries,
then commit with `5`), three executions, callback calls with try counts
0, 1, 2. -/
def tThird : RecordTrace :=
  ⟨3, 3,
   [⟨.success, jobA, some 3, none, none, 0⟩,
    ⟨.success, jobA, some 3, none, none, 1⟩,
    ⟨.success, jobA, some 3, none, none, 2⟩],
   5, none, true⟩

/-! Helper lemmas shared across the claim theorems. -/

/-- A configured callback is invoked exactly once per `_exec_callback`
call, whatever it does. -/
theorem execCallback_snd (f : CallbackCall → CbResult) (call : CallbackCall) :
    (execCallback (some f) call).2 = [call] := by
  cases h : f call with
  | raises => simp [execCallback, h]
  | returns v => cases v <;> simp [execCallback, h]

/-- The function `_exec_callback` yields `1` whenever no decision is produced: callback
absent, callback raising, or callback returning `None`. -/
theorem execCallback_fst_noDecision (cb : Option (CallbackCall → CbResult))
    (call : CallbackCall)
    (h : cb = none ∨ ∃ f, cb = some f ∧ ∀ c, f c = .raises ∨ f c = .returns none) :
    (execCallback cb call).1 = 1 := by
  rcases h with h | ⟨f, hf, hall⟩
  · simp [execCallback, h]
  · rcases hall call with h1 | h1 <;> simp [execCallback, hf, h1]

/-- A callback returning a non-`None` value determines the commit-control
value returned by `_exec_callback`. -/
theorem execCallback_fst_returns (f : CallbackCall → CbResult) (call : CallbackCall)
    (v : Int) (h : f call = .returns (some v)) :
    (execCallback (some f) call).1 = v := by
  simp [execCallback, h]

/-- The tuple `mkCall` always carries the `try_count` it was built with. -/
theorem mkCall_tryCount (obj : PyObj) (run : RunResult) (k : Nat) :
    (mkCall obj run k).tryCount = k := by
  cases run <;> rfl

/-- Evaluating `_consume_record` on a record that decodes to a valid job: the callable
is dispatched along `execPath`, the outcome is classified by `statusOf`,
and both the commit-control value and the callback invocations come from
`_exec_callback` on the `mkCall` argument tuple. -/
theorem consumeRecord_valid (cfg : WorkerCfg) (loads : Payload → Option PyObj)
    (run : RunResult) (record : Record) (k : Nat) (obj : PyObj)
    (hload : loads record.value = some obj) (hvalid : validJob obj = true) :
    consumeRecord cfg loads run record k =
      ⟨(execCallback cfg.callback (mkCall obj run k)).1,
       (execCallback cfg.callback (mkCall obj run k)).2,
       true, some (execPath cfg.timeout obj.jobTimeout), some (statusOf run)⟩ := by
  cases run <;> simp [consumeRecord, hload, hvalid, mkCall, statusOf]

/-- Evaluating `_consume_record` on an undecodable payload: `-1`, nothing executed,
no callback invocation. -/
theorem consumeRecord_unloadable (cfg : WorkerCfg) (loads : Payload → Option PyObj)
    (run : RunResult) (record : Record) (k : Nat) (h : loads record.value = none) :
    consumeRecord cfg loads run record k = ⟨-1, [], false, none, none⟩ := by
  simp [consumeRecord, h]

/-- Evaluating `_consume_record` on a decodable but structurally invalid payload:
`-1`, nothing executed, no callback invocation. -/
theorem consumeRecord_malformed (cfg : WorkerCfg) (loads : Payload → Option PyObj)
    (run : RunResult) (record : Record) (k : Nat) (obj : PyObj)
    (hload : loads record.value = some obj) (hvalid : validJob obj = false) :
    consumeRecord cfg loads run record k = ⟨-1, [], false, none, none⟩ := by
  simp [consumeRecord, hload, hvalid]

/-- The retry loop stops as soon as an attempt returns a non-zero
commit-control value. -/
theorem attemptLoop_stop (step : Nat → AttemptOut) (fuel k : Nat) (acc : LoopStats)
    (h : (step k).commitControl ≠ 0) :
    attemptLoop step (fuel + 1) k acc =
      some ((step k).commitControl, acc.push (step k)) := by
  simp [attemptLoop, h]

/-- The retry loop re-enters on a zero (retry) commit-control value,
with `try_count` incremented. -/
theorem attemptLoop_skip (step : Nat → AttemptOut) (fuel k : Nat) (acc : LoopStats)
    (h : (step k).commitControl = 0) :
    attemptLoop step (fuel + 1) k acc =
      attemptLoop step fuel (k + 1) (acc.push (step k)) := by
  simp [attemptLoop, h]

/-- If every attempt returns the retry value `0`, the loop never produces
a decisive result, however much fuel it is given. -/
theorem attemptLoop_none (step : Nat → AttemptOut)
    (h : ∀ j, (step j).commitControl = 0) :
    ∀ fuel k acc, attemptLoop step fuel k acc = none := by
  intro fuel
  induction fuel with
  | zero => intro k acc; rfl
  | succ n ih =>
      intro k acc
      rw [attemptLoop_skip step n k acc (h k)]
      exact ih (k + 1) _

/-- If attempts `k, ..., k+m-1` return the retry value and attempt `k+m`
returns a non-zero value, the loop stops after exactly `m+1` attempts with
that value and the corresponding accumulated statistics. -/
theorem attemptLoop_run (step : Nat → AttemptOut) :
    ∀ (m k fuel : Nat) (acc : LoopStats),
      (∀ j, j < m → (step (k + j)).commitControl = 0) →
      (step (k + m)).commitControl ≠ 0 →
      m < fuel →
      attemptLoop step fuel k acc =
        some ((step (k + m)).commitControl, pushRange step acc k (m + 1)) := by
  intro m
  induction m with
  | zero =>
      intro k fuel acc _ hstop hfuel
      obtain ⟨f, rfl⟩ : ∃ f, fuel = f + 1 := ⟨fuel - 1, by omega⟩
      rw [attemptLoop_stop step f k acc (by simpa using hstop)]
      simp [pushRange]
  | succ n ih =>
      intro k fuel acc hzero hstop hfuel
      obtain ⟨f, rfl⟩ : ∃ f, fuel = f + 1 := ⟨fuel - 1, by omega⟩
      rw [attemptLoop_skip step f k acc (by simpa using hzero 0 (by omega))]
      have hzero1 : ∀ j, j < n → (step (k + 1 + j)).commitControl = 0 := by
        intro j hj
        have := hzero (j + 1) (by omega)
        rwa [show k + (j + 1) = k + 1 + j by omega] at this
      have hstop1 : (step (k + 1 + n)).commitControl ≠ 0 := by
        rwa [show k + (n + 1) = k + 1 + n by omega] at hstop
      rw [ih (k + 1) f (acc.push (step k)) hzero1 hstop1 (by omega)]
      rw [show k + 1 + n = k + (n + 1) by omega]
      rfl

/-- Pushing `m` attempts increases the attempt count by exactly `m`. -/
theorem pushRange_attempts (step : Nat → AttemptOut) :
    ∀ (m k : Nat) (acc : LoopStats),
      (pushRange step acc k m).attempts = acc.attempts + m := by
  intro m
  induction m with
  | zero => intro k acc; rfl
  | succ n ih =>
      intro k acc
      rw [pushRange, ih]
      simp [LoopStats.push]
      omega

/-- When every attempt dispatches the callable, `m` pushed attempts
increase the execution count by exactly `m`. -/
theorem pushRange_executions (step : Nat → AttemptOut)
    (hexec : ∀ j, (step j).executed = true) :
    ∀ (m k : Nat) (acc : LoopStats),
      (pushRange step acc k m).executions = acc.executions + m := by
  intro m
  induction m with
  | zero => intro k acc; rfl
  | succ n ih =>
      intro k acc
      rw [pushRange, ih]
      simp [LoopStats.push, hexec k]
      omega

/-- When each attempt `j` makes exactly the callback invocation `call j`,
the loop's decisive run accumulates the invocations for `try_count = k,
k+1, ...` in order. -/
theorem attemptLoop_cbCalls (step : Nat → AttemptOut) (call : Nat → CallbackCall)
    (hcb : ∀ j, (step j).cbCalls = [call j]) :
    ∀ (fuel k : Nat) (acc : LoopStats) (cc : Int) (stats : LoopStats),
      attemptLoop step fuel k acc = some (cc, stats) →
      ∃ m, stats.attempts = acc.attempts + m + 1 ∧
        stats.cbCalls = acc.cbCalls ++ (List.range' k (m + 1)).map call := by
  intro fuel
  induction fuel with
  | zero => intro k acc cc stats h; exact absurd h (by simp [attemptLoop])
  | succ n ih =>
      intro k acc cc stats h
      by_cases h0 : (step k).commitControl = 0
      · rw [attemptLoop_skip step n k acc h0] at h
        obtain ⟨m, hm1, hm2⟩ := ih (k + 1) _ cc stats h
        refine ⟨m + 1, ?_, ?_⟩
        · simp [LoopStats.push] at hm1
          omega
        · rw [hm2]
          simp [LoopStats.push, hcb k, List.range'_succ k (m + 1) 1]
      · rw [attemptLoop_stop step n k acc h0] at h
        have hcc : stats = acc.push (step k) := by
          cases h
          rfl
        subst hcc
        refine ⟨0, by simp [LoopStats.push], ?_⟩
        simp [LoopStats.push, hcb k]

/-! Claim theorems. -/

/-- Claim C1: for every processed record (one that decodes to a valid job)
and every execution outcome — success, failure or timeout — if no callback
is configured, or the configured callback returns no value (`None`) on
every invocation, or it always raises (the exception is caught inside
`_exec_callback` and never propagated), then the commit-control value of
the attempt is `1` (commit) and `Worker.start` commits the offset. -/
theorem c1_no_decision_commits (cfg : WorkerCfg) (env : Env) (record : Record)
    (obj : PyObj) (k fuel : Nat)
    (hload : env.loads record.value = some obj)
    (hvalid : validJob obj = true)
    (hcb : cfg.callback = none ∨ ∃ f, cfg.callback = some f ∧
      ∀ c, f c = .raises ∨ f c = .returns none) :
    (consumeRecord cfg env.loads (env.run k) record k).commitControl = 1 ∧
    ∃ t, processRecord cfg env record (fuel + 1) = some t ∧
      t.committed = true ∧ t.finalDecision = 1 := by
  have hcc : ∀ j, (consumeRecord cfg env.loads (env.run j) record j).commitControl = 1 := by
    intro j
    rw [consumeRecord_valid cfg env.loads (env.run j) record j obj hload hvalid]
    exact execCallback_fst_noDecision _ _ hcb
  refine ⟨hcc k, ?_⟩
  have hstep := attemptLoop_stop
    (fun j => consumeRecord cfg env.loads (env.run j) record j) fuel 0 ⟨0, 0, []⟩
    (by rw [hcc 0]; norm_num)
  unfold processRecord
  rw [hstep, hcc 0]
  norm_num

/-- Witness for C1: no callback configured, job returns `3`; the attempt
yields commit-control `1` and the offset is committed. -/
theorem c1_no_decision_commits_witness :
    (consumeRecord cfgNone envA.loads (envA.run 0) recA 0).commitControl = 1 ∧
    ∃ t, processRecord cfgNone envA recA 1 = some t ∧
      t.committed = true ∧ t.finalDecision = 1 :=
  c1_no_decision_commits cfgNone envA recA jobA 0 0 rfl rfl (Or.inl rfl)

/-- Claim C2: if the callback returns the retry signal (`0`) on each of
the first `N-1` attempts and a commit value (neither `0` nor `-1`) on the
`N`-th, the record's decode→execute→dispatch attempt runs exactly `N`
times before the offset commits; and there is no built-in retry bound — a
callback always returning `0` makes the loop run forever (no fuel
suffices). -/
theorem c2_retry_until_commit (env : Env) (record : Record) (obj : PyObj)
    (hload : env.loads record.value = some obj)
    (hvalid : validJob obj = true) :
    (∀ (cfg : WorkerCfg) (f : CallbackCall → CbResult) (N : Nat),
      cfg.callback = some f → 1 ≤ N →
      (∀ call, call.tryCount + 1 < N → f call = .returns (some 0)) →
      (∀ call, call.tryCount + 1 = N →
        ∃ c, f call = .returns (some c) ∧ c ≠ 0 ∧ c ≠ -1) →
      ∀ fuel, N ≤ fuel →
        ∃ t, processRecord cfg env record fuel = some t ∧
          t.attempts = N ∧ t.executions = N ∧ t.committed = true) ∧
    (∀ (cfg : WorkerCfg) (f : CallbackCall → CbResult),
      cfg.callback = some f → (∀ call, f call = .returns (some 0)) →
      ∀ fuel, processRecord cfg env record fuel = none) := by
  constructor
  · intro cfg f N hcb hN hretry hlast fuel hfuel
    obtain ⟨m, rfl⟩ : ∃ m, N = m + 1 := ⟨N - 1, by omega⟩
    have hstep : ∀ j, consumeRecord cfg env.loads (env.run j) record j =
        ⟨(execCallback cfg.callback (mkCall obj (env.run j) j)).1,
         (execCallback cfg.callback (mkCall obj (env.run j) j)).2,
         true, some (execPath cfg.timeout obj.jobTimeout), some (statusOf (env.run j))⟩ :=
      fun j => consumeRecord_valid cfg env.loads (env.run j) record j obj hload hvalid
    have hzero : ∀ j, j < m →
        (consumeRecord cfg env.loads (env.run (0 + j)) record (0 + j)).commitControl = 0 := by
      intro j hj
      rw [Nat.zero_add, hstep j, hcb]
      exact execCallback_fst_returns f _ 0
        (hretry _ (by rw [mkCall_tryCount]; omega))
    obtain ⟨c, hc, hc0, hcm1⟩ :=
      hlast (mkCall obj (env.run m) m) (by rw [mkCall_tryCount])
    have hstop : (consumeRecord cfg env.loads (env.run (0 + m)) record (0 + m)).commitControl = c := by
      rw [Nat.zero_add, hstep m, hcb]
      exact execCallback_fst_returns f _ c hc
    have hloop := attemptLoop_run
      (fun j => consumeRecord cfg env.loads (env.run j) record j)
      m 0 fuel ⟨0, 0, []⟩ hzero (by rw [hstop]; exact hc0) (by omega)
    unfold processRecord
    rw [hloop, hstop]
    have hnotdl : ¬(c = -1) := hcm1
    dsimp only
    rw [if_neg hnotdl]
    refine ⟨_, rfl, ?_, ?_, rfl⟩
    · simp [pushRange_attempts]
    · have hexec : ∀ j,
          ((fun j => consumeRecord cfg env.loads (env.run j) record j) j).executed = true := by
        intro j
        show (consumeRecord cfg env.loads (env.run j) record j).executed = true
        rw [hstep j]
      simp [pushRange_executions _ hexec]
  · intro cfg f hcb hall fuel
    have hzero : ∀ j,
        (consumeRecord cfg env.loads (env.run j) record j).commitControl = 0 := by
      intro j
      rw [consumeRecord_valid cfg env.loads (env.run j) record j obj hload hvalid, hcb]
      exact execCallback_fst_returns f _ 0 (hall _)
    unfold processRecord
    rw [attemptLoop_none _ hzero fuel 0 ⟨0, 0, []⟩]

/-- Witness for C2 at `N = 3`: the `fThird` callback retries twice then
commits with `5`, giving exactly 3 attempts and 3 executions; the
always-`0` callback never lets the loop finish within 100 attempts. -/
theorem c2_retry_until_commit_witness :
    (∃ t, processRecord cfgThird envA recA 3 = some t ∧
      t.attempts = 3 ∧ t.executions = 3 ∧ t.committed = true) ∧
    processRecord cfgRetry envA recA 100 = none := by
  have h := c2_retry_until_commit envA recA jobA rfl rfl
  refine ⟨?_, h.2 cfgRetry fRetry rfl (fun _ => rfl) 100⟩
  exact h.1 cfgThird fThird 3 rfl (by omega)
    (fun call hc => by simp [fThird, hc])
    (fun call hc => ⟨5, by simp [fThird, hc], by norm_num, by norm_num⟩)
    3 (by omega)

/-- Claim C3: whenever the attempt loop ends with the dead-letter decision
`-1`, `_fail_record` is invoked (the trace records its send request) and
the offset is committed exactly when the forward is acknowledged; a
failed forward leaves the offset uncommitted. -/
theorem c3_dead_letter_gates_commit (cfg : WorkerCfg) (env : Env) (record : Record)
    (fuel : Nat) (t : RecordTrace)
    (h : processRecord cfg env record fuel = some t)
    (hdl : t.finalDecision = -1) :
    t.forwarded = some (failRecord cfg env.loads record env.ackOk 0).req ∧
    (t.committed = true ↔ env.ackOk = true) := by
  unfold processRecord at h
  rcases hl : attemptLoop
      (fun k => consumeRecord cfg env.loads (env.run k) record k)
      fuel 0 ⟨0, 0, []⟩ with _ | ⟨cc, stats⟩
  · rw [hl] at h
    simp at h
  · rw [hl] at h
    dsimp only at h
    by_cases hcc : cc = -1
    · rw [if_pos hcc] at h
      cases h
      exact ⟨rfl, Iff.rfl⟩
    · rw [if_neg hcc] at h
      cases h
      exact absurd hdl hcc

/-- Witness for C3: an undecodable payload dead-letters; with the forward
unacknowledged the offset stays uncommitted. -/
theorem c3_dead_letter_gates_commit_witness :
    tC3.forwarded = some (failRecord cfgNone envBad.loads recA envBad.ackOk 0).req ∧
    (tC3.committed = true ↔ envBad.ackOk = true) :=
  c3_dead_letter_gates_commit cfgNone envBad recA 1 tC3 (by decide) rfl

/-- Claim C4: a record whose payload cannot be deserialized, or
deserializes to something that is not a valid `Job` (instance with
iterable `args`, mapping `kwargs`, callable `func`), never has its
callable invoked: every attempt immediately returns the dead-letter value
`-1` with no execution and no callback invocation, and the record's
processing performs zero executions. -/
theorem c4_malformed_dead_letter (cfg : WorkerCfg) (env : Env) (record : Record)
    (hbad : env.loads record.value = none ∨
      ∃ obj, env.loads record.value = some obj ∧ validJob obj = false) :
    (∀ k, consumeRecord cfg env.loads (env.run k) record k = ⟨-1, [], false, none, none⟩) ∧
    ∀ fuel, ∃ t, processRecord cfg env record (fuel + 1) = some t ∧
      t.attempts = 1 ∧ t.executions = 0 ∧ t.cbCalls = [] ∧ t.finalDecision = -1 := by
  have hone : ∀ k, consumeRecord cfg env.loads (env.run k) record k =
      ⟨-1, [], false, none, none⟩ := by
    intro k
    rcases hbad with h | ⟨obj, hload, hvalid⟩
    · exact consumeRecord_unloadable cfg env.loads (env.run k) record k h
    · exact consumeRecord_malformed cfg env.loads (env.run k) record k obj hload hvalid
  refine ⟨hone, fun fuel => ?_⟩
  have hstep := attemptLoop_stop
    (fun j => consumeRecord cfg env.loads (env.run j) record j) fuel 0 ⟨0, 0, []⟩
    (by
      show (consumeRecord cfg env.loads (env.run 0) record 0).commitControl ≠ 0
      rw [hone 0]
      norm_num)
  dsimp only at hstep
  rw [hone 0] at hstep
  unfold processRecord
  rw [hstep]
  norm_num
  simp [LoopStats.push]

/-- Witness for C4: payload `10` is undecodable under `loads0`; the
attempt yields `-1` with no execution and no callback call. -/
theorem c4_malformed_dead_letter_witness :
    consumeRecord cfgNone envBad.loads (envBad.run 0) recA 0 = ⟨-1, [], false, none, none⟩ ∧
    ∃ t, processRecord cfgNone envBad recA 1 = some t ∧
      t.attempts = 1 ∧ t.executions = 0 ∧ t.cbCalls = [] ∧ t.finalDecision = -1 := by
  have h := c4_malformed_dead_letter cfgNone envBad recA (Or.inl rfl)
  exact ⟨h.1 0, h.2 0⟩

/-- Counterexample to C5 as stated: `0` is a non-`None` callback return
value distinct from the dead-letter sentinel `-1`, yet it is the retry
signal, not a commit — after the attempt whose callback returned `0` the
loop has not ended and nothing has been committed (even after 5 attempts
the loop is still running). -/
theorem c5_counterexample :
    fRetry ⟨.success, jobA, some 3, none, none, 0⟩ = .returns (some 0) ∧
    (consumeRecord cfgRetry envA.loads (envA.run 0) recA 0).cbCalls =
      [⟨.success, jobA, some 3, none, none, 0⟩] ∧
    (consumeRecord cfgRetry envA.loads (envA.run 0) recA 0).commitControl = 0 ∧
    processRecord cfgRetry envA recA 5 = none := by
  refine ⟨rfl, ?_, ?_, ?_⟩ <;> decide

/-- Claim C5 (amended): for every attempt whose callback returns a
non-`None` value that is neither the retry signal `0` nor the dead-letter
sentinel `-1`, that value is the attempt's commit-control value; any
non-zero value ends the attempt loop at that attempt, and any decisive
value other than `-1` commits the offset unconditionally, with no
dead-letter forward. -/
theorem c5_nonsentinel_commits (env : Env) (record : Record) (obj : PyObj)
    (hload : env.loads record.value = some obj)
    (hvalid : validJob obj = true) :
    (∀ (cfg : WorkerCfg) (f : CallbackCall → CbResult) (v : Int) (k : Nat),
      cfg.callback = some f →
      (∀ call, call.tryCount = k → f call = .returns (some v)) →
      (consumeRecord cfg env.loads (env.run k) record k).commitControl = v) ∧
    (∀ (step : Nat → AttemptOut) (fuel k : Nat) (acc : LoopStats),
      (step k).commitControl ≠ 0 →
      attemptLoop step (fuel + 1) k acc =
        some ((step k).commitControl, acc.push (step k))) ∧
    (∀ (cfg : WorkerCfg) (fuel : Nat) (t : RecordTrace),
      processRecord cfg env record fuel = some t →
      t.finalDecision ≠ -1 →
      t.forwarded = none ∧ t.committed = true) := by
  refine ⟨?_, attemptLoop_stop, ?_⟩
  · intro cfg f v k hcb hcall
    rw [consumeRecord_valid cfg env.loads (env.run k) record k obj hload hvalid, hcb]
    exact execCallback_fst_returns f _ v (hcall _ (mkCall_tryCount obj (env.run k) k))
  · intro cfg fuel t h hnd
    unfold processRecord at h
    rcases hl : attemptLoop
        (fun k => consumeRecord cfg env.loads (env.run k) record k)
        fuel 0 ⟨0, 0, []⟩ with _ | ⟨cc, stats⟩
    · rw [hl] at h
      simp at h
    · rw [hl] at h
      dsimp only at h
      by_cases hcc : cc = -1
      · rw [if_pos hcc] at h
        cases h
        exact absurd hcc hnd
      · rw [if_neg hcc] at h
        cases h
        exact ⟨rfl, rfl⟩

/-- Witness for the amended C5: the always-`9` callback yields
commit-control `9`, ends the loop in one attempt, and commits with no
forward. -/
theorem c5_nonsentinel_commits_witness :
    (consumeRecord cfgNine envA.loads (envA.run 0) recA 0).commitControl = 9 ∧
    attemptLoop stepNine 1 0 ⟨0, 0, []⟩ =
      some ((stepNine 0).commitControl, LoopStats.push ⟨0, 0, []⟩ (stepNine 0)) ∧
    tNine.forwarded = none ∧ tNine.committed = true := by
  have h := c5_nonsentinel_commits envA recA jobA rfl rfl
  exact ⟨h.1 cfgNine fNine 9 0 rfl (fun _ _ => rfl),
         h.2.1 stepNine 0 0 ⟨0, 0, []⟩ (by decide),
         h.2.2 cfgNine 1 tNine (by decide) (by decide)⟩

/-- Claim C6: the effective timeout is the worker-level timeout when that
is configured (truthy — Python `self._timeout or job.timeout`), else the
job's declared timeout, else none; a `none` effective timeout runs the
callable inline in the calling context, a set one dispatches it to the
execution pool awaited up to that timeout, and the pool created once in
`Worker.start` has exactly one process. -/
theorem c6_effective_timeout (wt jt : Option Nat) :
    (timeoutConfigured wt = true → effTimeout wt jt = wt) ∧
    (timeoutConfigured wt = false → effTimeout wt jt = jt) ∧
    (effTimeout wt jt = none → execPath wt jt = .inline) ∧
    (∀ u, effTimeout wt jt = some u → execPath wt jt = .pool u) ∧
    poolProcesses = 1 ∧
    (∀ (cfg : WorkerCfg) (loads : Payload → Option PyObj) (run : RunResult)
        (record : Record) (k : Nat) (obj : PyObj),
      loads record.value = some obj → validJob obj = true →
      (consumeRecord cfg loads run record k).path =
        some (execPath cfg.timeout obj.jobTimeout)) := by
  refine ⟨?_, ?_, ?_, ?_, rfl, ?_⟩
  · intro h
    simp [effTimeout, h]
  · intro h
    simp [effTimeout, h]
  · intro h
    simp [execPath, h]
  · intro u h
    simp [execPath, h]
  · intro cfg loads run record k obj hload hvalid
    rw [consumeRecord_valid cfg loads run record k obj hload hvalid]

/-- Witness for C6: worker timeout 3 wins over the job's; with neither
set the path is inline; with an effective timeout the path is the pool;
the pool has one process; the recorded path of a real attempt matches. -/
theorem c6_effective_timeout_witness :
    effTimeout (some 3) (some 2) = some 3 ∧
    effTimeout none (some 2) = some 2 ∧
    execPath none none = .inline ∧
    execPath (some 3) none = .pool 3 ∧
    poolProcesses = 1 ∧
    (consumeRecord cfgNone loadsA (RunResult.ok 3) recA 0).path =
      some (execPath cfgNone.timeout jobA.jobTimeout) := by
  refine ⟨(c6_effective_timeout (some 3) (some 2)).1 rfl,
          (c6_effective_timeout none (some 2)).2.1 rfl,
          (c6_effective_timeout none none).2.2.1 rfl,
          (c6_effective_timeout (some 3) none).2.2.2.1 3 (by decide),
          (c6_effective_timeout none none).2.2.2.2.1,
          (c6_effective_timeout none none).2.2.2.2.2 cfgNone loadsA
            (RunResult.ok 3) recA 0 jobA rfl rfl⟩

/-- Claim C7: a job execution that exceeds its effective timeout
(`mp.TimeoutError` from the pool wait) classifies the attempt's outcome
as `timeout`, and a configured callback receives exactly
`('timeout', job, None, None, None, try_count)`. -/
theorem c7_timeout_outcome (cfg : WorkerCfg) (env : Env) (record : Record)
    (obj : PyObj) (k : Nat)
    (hload : env.loads record.value = some obj)
    (hvalid : validJob obj = true)
    (hrun : env.run k = .timeoutErr) :
    (consumeRecord cfg env.loads (env.run k) record k).outcome = some .timeout ∧
    ∀ f, cfg.callback = some f →
      (consumeRecord cfg env.loads (env.run k) record k).cbCalls =
        [⟨.timeout, obj, none, none, none, k⟩] := by
  rw [hrun]
  constructor
  · rw [consumeRecord_valid cfg env.loads .timeoutErr record k obj hload hvalid]
    rfl
  · intro f hf
    rw [consumeRecord_valid cfg env.loads .timeoutErr record k obj hload hvalid, hf,
        execCallback_snd]
    rfl

/-- Witness for C7: under `envT` every run times out; the attempt's
outcome is `timeout` and the `None`-returning callback receives the
timeout argument tuple with `try_count = 0`. -/
theorem c7_timeout_outcome_witness :
    (consumeRecord cfgCb envT.loads (envT.run 0) recA 0).outcome = some .timeout ∧
    (consumeRecord cfgCb envT.loads (envT.run 0) recA 0).cbCalls =
      [⟨.timeout, jobA, none, none, none, 0⟩] := by
  have h := c7_timeout_outcome cfgCb envT recA jobA 0 rfl rfl rfl
  exact ⟨h.1, h.2 fNone rfl⟩

/-- Claim C8: `_fail_record` publishes the original raw payload bytes
verbatim to `<topic>.failed`; the partition key comes from best-effort
re-decoding of the payload — an undecodable payload or a failing `.key`
attribute access yields key `None` — and the publish proceeds (its result
depends only on broker acknowledgment) whether or not the key was
recovered. -/
theorem c8_forward_verbatim (cfg : WorkerCfg) (loads : Payload → Option PyObj)
    (record : Record) (ackOk : Bool) (pid : Nat) :
    (failRecord cfg loads record ackOk pid).req.sendTopic = getFailTopic cfg.topic ∧
    getFailTopic cfg.topic = cfg.topic ++ ".failed" ∧
    (failRecord cfg loads record ackOk pid).req.value = record.value ∧
    (loads record.value = none →
      (failRecord cfg loads record ackOk pid).req.key = none) ∧
    (∀ obj, loads record.value = some obj → obj.keyAttr = none →
      (failRecord cfg loads record ackOk pid).req.key = none) ∧
    (∀ obj k, loads record.value = some obj → obj.keyAttr = some k →
      (failRecord cfg loads record ackOk pid).req.key = k) ∧
    (failRecord cfg loads record ackOk pid).acked = ackOk := by
  refine ⟨rfl, rfl, rfl, ?_, ?_, ?_, rfl⟩
  · intro h
    simp [failRecord, h]
  · intro obj h1 h2
    simp [failRecord, h1, h2]
  · intro obj k h1 h2
    simp [failRecord, h1, h2]

/-- Witness for C8: decodable payload recovers key `7`; undecodable
payload forwards with key `None`; topic, payload bytes and ack result are
as claimed. -/
theorem c8_forward_verbatim_witness :
    (failRecord cfgNone loadsA recA true 0).req.key = some 7 ∧
    (failRecord cfgNone loads0 recA false 0).req.key = none ∧
    (failRecord cfgNone loads0 recA false 0).req.sendTopic = getFailTopic cfgNone.topic ∧
    getFailTopic cfgNone.topic = cfgNone.topic ++ ".failed" ∧
    (failRecord cfgNone loads0 recA false 0).req.value = recA.value ∧
    (failRecord cfgNone loads0 recA false 0).acked = false := by
  have h1 := c8_forward_verbatim cfgNone loadsA recA true 0
  have h2 := c8_forward_verbatim cfgNone loads0 recA false 0
  exact ⟨h1.2.2.2.2.2.1 jobA (some 7) rfl rfl, h2.2.2.2.1 rfl, h2.1, h2.2.1,
         h2.2.2.1, h2.2.2.2.2.2.2⟩

/-- Counterexample to C9 as stated: two consecutive dead-letter forwards
within one worker use distinct producer instances (ids 0 and 1) — a fresh
`Queue` is constructed inside every `_fail_record` call, so no producer
is reused. -/
theorem c9_counterexample :
    forwardProducerIds cfgNone loads0 true [recA, recA] 0 = [0, 1] ∧
    (failRecord cfgNone loads0 recA true 0).producerId ≠
      (failRecord cfgNone loads0 recA true
        (failRecord cfgNone loads0 recA true 0).nextProducerId).producerId := by
  constructor <;> decide

/-- Claim C9 (amended): the dead-letter producer is not a worker-lifetime
resource — every `_fail_record` call constructs a fresh producer, so a
sequence of forwards uses the consecutive fresh ids
`pid, pid+1, ...`, all pairwise distinct. -/
theorem c9_fresh_producer_per_forward (cfg : WorkerCfg)
    (loads : Payload → Option PyObj) (ackOk : Bool) :
    (∀ (r : Record) (pid : Nat),
      (failRecord cfg loads r ackOk pid).producerId = pid ∧
      (failRecord cfg loads r ackOk pid).nextProducerId = pid + 1) ∧
    (∀ (rs : List Record) (pid : Nat),
      forwardProducerIds cfg loads ackOk rs pid = List.range' pid rs.length) ∧
    (∀ (rs : List Record) (pid : Nat),
      (forwardProducerIds cfg loads ackOk rs pid).Nodup) := by
  have hids : ∀ (rs : List Record) (pid : Nat),
      forwardProducerIds cfg loads ackOk rs pid = List.range' pid rs.length := by
    intro rs
    induction rs with
    | nil => intro pid; rfl
    | cons r rs ih =>
        intro pid
        simp [forwardProducerIds, failRecord, ih, List.range'_succ]
  refine ⟨fun r pid => ⟨rfl, rfl⟩, hids, fun rs pid => ?_⟩
  rw [hids]
  exact List.nodup_range' pid rs.length 1 (by omega)

/-- Claim C10: with a callback configured and a record that decodes to a
valid job, the callback invocation made on the k-th attempt carries
`try_count = k - 1`: across the record's whole processing the try counts
are exactly `0, 1, ..., attempts - 1`, one per attempt. -/
theorem c10_try_count (cfg : WorkerCfg) (env : Env) (record : Record)
    (obj : PyObj) (f : CallbackCall → CbResult) (fuel : Nat) (t : RecordTrace)
    (hload : env.loads record.value = some obj)
    (hvalid : validJob obj = true)
    (hcb : cfg.callback = some f)
    (h : processRecord cfg env record fuel = some t) :
    t.cbCalls.length = t.attempts ∧
    t.cbCalls.map CallbackCall.tryCount = List.range t.attempts := by
  have hcalls : ∀ j,
      ((fun j => consumeRecord cfg env.loads (env.run j) record j) j).cbCalls =
        [(fun j => mkCall obj (env.run j) j) j] := by
    intro j
    show (consumeRecord cfg env.loads (env.run j) record j).cbCalls = _
    rw [consumeRecord_valid cfg env.loads (env.run j) record j obj hload hvalid, hcb,
        execCallback_snd]
  unfold processRecord at h
  rcases hl : attemptLoop
      (fun k => consumeRecord cfg env.loads (env.run k) record k)
      fuel 0 ⟨0, 0, []⟩ with _ | ⟨cc, stats⟩
  · rw [hl] at h
    simp at h
  · obtain ⟨m, hm1, hm2⟩ :=
      attemptLoop_cbCalls _ _ hcalls fuel 0 ⟨0, 0, []⟩ cc stats hl
    rw [hl] at h
    dsimp only at h
    have hfields : t.cbCalls = stats.cbCalls ∧ t.attempts = stats.attempts := by
      by_cases hcc : cc = -1
      · rw [if_pos hcc] at h
        cases h
        exact ⟨rfl, rfl⟩
      · rw [if_neg hcc] at h
        cases h
        exact ⟨rfl, rfl⟩
    rw [hfields.1, hfields.2, hm1, hm2]
    constructor
    · simp
    · have hid : (CallbackCall.tryCount ∘ fun j => mkCall obj (env.run j) j) = id := by
        funext j
        simp [mkCall_tryCount]
      simp [List.map_map, hid, List.range_eq_range']

/-- Witness for C10: under `cfgThird` the record takes three attempts
whose callback calls carry try counts 0, 1, 2. -/
theorem c10_try_count_witness :
    tThird.cbCalls.length = tThird.attempts ∧
    tThird.cbCalls.map CallbackCall.tryCount = List.range tThird.attempts :=
  c10_try_count cfgThird envA recA jobA fThird 3 tThird rfl rfl rfl (by decide)

end KQ
